import Mathlib

/-!
# mackerel-plugin-count-sql: the collection pipeline of `lib/postgres.go`

A shallow embedding of the plugin's Go code and the properties of its
fetch / merge / graph-definition pipeline.

Modelling conventions.

* A Go `map[string]T` is an association list with pairwise distinct keys
  (`AList`).  The order of `entries` stands for one possible iteration order
  of `range`; two maps are the same Go map when they agree on every `lookup`.
  `dst[k] = v` is `AList.insert k v dst`.
* A Go function that mutates a map argument returns the mutated map.
* A Go result pair `(m, err)` is a pair of options, where `none` is `nil`.
* The code never computes with the `float64` it scans out of a row: it only
  stores it.  The carrier `F` of `float64` values is therefore a parameter.
* The database is an oracle: a statement either fails to start or returns a
  sequence of rows, and each row either decodes (`Scan` succeeds) or does not.
* Calls to the logger do not influence any returned value and are left out.
-/

namespace mppostgres

/-- A Go `error` value (non-nil), identified by its message. -/
abbrev Error := String

/-- A Go `map[string]T`. -/
abbrev GoMap (V : Type) := AList (fun _ : String => V)

/-- The dynamic values the plugin stores into a `map[string]interface{}`:
the untyped constant `0` becomes an `int`, a scanned column a `float64`. -/
inductive Value (F : Type) where
  | int (n : Int)
  | float (x : F)
  deriving DecidableEq, Repr

/-- A metric fragment or snapshot: `map[string]interface{}`. -/
abbrev Stat (F : Type) := GoMap (Value F)

/-- A Go result pair `(map[string]interface{}, error)`; `none` is `nil`. -/
abbrev FetchResult (F : Type) := Option (Stat F) × Option Error

/-- One returned row: the outcome of `rows.Scan(&count)` into a `float64`. -/
abbrev Row (F : Type) := Except Error F

/-- The handle `*sqlx.DB`: `Query` either fails to start the statement or
yields the rows that `rows.Next()` walks through. -/
structure DB (F : Type) where
  Query : String → Except Error (List (Row F))

/-- The struct `PostgresPlugin`. -/
structure PostgresPlugin where
  Host : String
  Port : String
  Username : String
  Password : String
  SSLmode : String
  Prefix : String
  Timeout : Int
  Tempfile : String
  Option : String
  deriving DecidableEq, Repr

/-- Body of the loop `for rows.Next() { ... }` shared by `fetchCount` and
`fetchSum`: a row that fails to scan is skipped (`continue`), a row that scans
overwrites `stat[key]`. -/
def scanRow {F : Type} (key : String) (stat : Stat F) (row : Row F) : Stat F :=
  match row with
  | .error _ => stat
  | .ok count => stat.insert key (Value.float count)

/-- The loop `for rows.Next() { ... }` over all returned rows. -/
def scanRows {F : Type} (key : String) (stat : Stat F) (rows : List (Row F)) : Stat F :=
  rows.foldl (scanRow key) stat

/-- The statement run by `fetchCount`. -/
def countQuery : String := "select count(*) from sample"

/-- The statement run by `fetchSum`. -/
def sumQuery : String := "select sum(column2) from sample"

/-- Embedding of `fetchCount`. -/
def fetchCount {F : Type} (db : DB F) : FetchResult F :=
  match db.Query countQuery with
  | .error err => (none, some err)
  | .ok rows =>
    let stat : Stat F := AList.singleton "count" (Value.int 0)
    (some (scanRows "count" stat rows), none)

/-- Embedding of `fetchSum`. -/
def fetchSum {F : Type} (db : DB F) : FetchResult F :=
  match db.Query sumQuery with
  | .error err => (none, some err)
  | .ok rows =>
    let stat : Stat F := AList.singleton "sum" (Value.int 0)
    (some (scanRows "sum" stat rows), none)

/-- Embedding of `mergeStat`: `for k, v := range src { dst[k] = v }`, with the
entries of `src` visited in the order of `src.entries`.  `dst` is a map that
was made (`FetchMetrics` passes `make(map[string]interface{})`); the mutated
`dst` is the result. -/
def mergeStat {V : Type} (dst src : GoMap V) : GoMap V :=
  src.entries.foldl (fun d e => d.insert e.1 e.2) dst

/-- Embedding of `PostgresPlugin.MetricKeyPrefix`. -/
def PostgresPlugin.MetricKeyPrefix (p : PostgresPlugin) : String :=
  if p.Prefix = "" then "postgres" else p.Prefix

/-- The data source name built at the top of `FetchMetrics` with
`fmt.Sprintf`. -/
def PostgresPlugin.connectCmd (p : PostgresPlugin) : String :=
  let cmd := "user=" ++ p.Username ++ " host=" ++ p.Host ++ " port=" ++ p.Port
    ++ " sslmode=" ++ p.SSLmode ++ " connect_timeout=" ++ toString p.Timeout
    ++ " " ++ p.Option
  if p.Password ≠ "" then "password=" ++ p.Password ++ " " ++ cmd else cmd

/-- Embedding of `PostgresPlugin.FetchMetrics`.  `connect` stands for
`sqlx.Connect`: given the driver name and the data source name it either
fails or hands out a database handle. -/
def PostgresPlugin.FetchMetrics {F : Type} (p : PostgresPlugin)
    (connect : String → String → Except Error (DB F)) : FetchResult F :=
  match connect "postgres" p.connectCmd with
  | .error err => (none, some err)
  | .ok db =>
    match fetchCount db with
    | (_, some err) => (none, some err)
    | (statCount, none) =>
      match fetchSum db with
      | (_, some err) => (none, some err)
      | (statSum, none) =>
        let stat : Stat F := ∅
        let stat := mergeStat stat (statCount.getD ∅)
        let stat := mergeStat stat (statSum.getD ∅)
        (some stat, none)

/-- The merger of `FetchMetrics` (`stat := make(...)` followed by one
`mergeStat(stat, fragment)` per fragment), for any number of fragments. -/
def mergeFragments {V : Type} (frags : List (GoMap V)) : GoMap V :=
  frags.foldl mergeStat ∅

/-- The structs `mp.Metrics` of the plugin helper library, with the fields
that `GraphDefinition` sets (all other fields keep their zero value). -/
structure Metrics where
  Name : String
  Label : String
  deriving DecidableEq, Repr

/-- The struct `mp.Graphs` of the plugin helper library. -/
structure Graphs where
  Label : String
  Unit : String
  Metrics : List Metrics
  deriving DecidableEq, Repr

/-- The tables of Go's package `unicode` for runes above `0x7F`; below that
bound `strings.Title` decides everything by explicit ASCII ranges. -/
structure UnicodeTables where
  ToTitle : Char → Char
  IsLetter : Char → Bool
  IsDigit : Char → Bool
  IsSpace : Char → Bool

/-- Modelled from the spec: the title-casing of section 6 ("title-cased
metric-key prefix") is `strings.Title` of the Go standard library, which is not
part of the repository.  This is its helper `isSeparator`: ASCII letters,
digits and the underscore do not separate words, every other ASCII rune does;
above ASCII a rune separates words when it is neither letter nor digit and is
a space. -/
def isSeparator (u : UnicodeTables) (r : Char) : Bool :=
  if r.toNat ≤ 0x7F then
    if '0' ≤ r ∧ r ≤ '9' then false
    else if 'a' ≤ r ∧ r ≤ 'z' then false
    else if 'A' ≤ r ∧ r ≤ 'Z' then false
    else if r = '_' then false
    else true
  else if u.IsLetter r || u.IsDigit r then false
  else u.IsSpace r

/-- Modelled from the spec: `unicode.ToTitle` of the Go standard library, which
is not part of the repository: an ASCII lower-case letter moves to upper case,
every other ASCII rune is unchanged, the rest is looked up in the tables. -/
def ToTitle (u : UnicodeTables) (r : Char) : Char :=
  if r.toNat ≤ 0x7F then
    if 'a' ≤ r ∧ r ≤ 'z' then Char.ofNat (r.toNat - ('a'.toNat - 'A'.toNat)) else r
  else u.ToTitle r

/-- The closure that `strings.Title` maps over the runes of its argument:
`prev` is the rune seen before `r`. -/
def titleRunes (u : UnicodeTables) (prev : Char) : List Char → List Char
  | [] => []
  | r :: rs =>
    (if isSeparator u prev then ToTitle u r else r) :: titleRunes u r rs

/-- Modelled from the spec: `strings.Title` of the Go standard library, which
is not part of the repository: the first rune of every word is mapped to title
case, where `prev` starts as a space. -/
def Title (u : UnicodeTables) (s : String) : String :=
  String.mk (titleRunes u ' ' s.data)

/-- Embedding of `PostgresPlugin.GraphDefinition`. -/
def PostgresPlugin.GraphDefinition (u : UnicodeTables) (p : PostgresPlugin) :
    GoMap Graphs :=
  let labelPrefix := Title u p.MetricKeyPrefix
  let graphdef : GoMap Graphs := ∅
  let graphdef := graphdef.insert "Count"
    { Label := labelPrefix ++ " Count"
      Unit := "integer"
      Metrics := [{ Name := "count", Label := "Count" }] }
  let graphdef := graphdef.insert "Sum"
    { Label := labelPrefix ++ " Sum"
      Unit := "integer"
      Metrics := [{ Name := "sum", Label := "Count" }] }
  graphdef

/-- Modelled from the spec: the key of an emitted record (section 4.4 and
section 6), `<prefix>.<graphId>.<metricKey>`; the emitter is the plugin helper
library, which is not part of the repository. -/
def emittedKey (pfx graphId metricKey : String) : String :=
  pfx ++ "." ++ graphId ++ "." ++ metricKey

/-- Modelled from the spec: the keys of the records emitted for a plugin, one
per metric of every graph of its graph definition. -/
def emittedKeys (u : UnicodeTables) (p : PostgresPlugin) : List String :=
  (p.GraphDefinition u).entries.flatMap fun g =>
    g.2.Metrics.map fun m => emittedKey p.MetricKeyPrefix g.1 m.Name

/-- The conditions under which `FetchMetrics` cannot start its work: the
connection cannot be established, or it can and the count statement or the sum
statement fails to start on it. -/
def startFails {F : Type} (p : PostgresPlugin)
    (connect : String → String → Except Error (DB F)) : Prop :=
  (∃ e, connect "postgres" p.connectCmd = .error e) ∨
  (∃ db, connect "postgres" p.connectCmd = .ok db ∧
    ((∃ e, db.Query countQuery = .error e) ∨ (∃ e, db.Query sumQuery = .error e)))

/-- A string is blank when it consists only of whitespace. -/
def isBlank (s : String) : Bool :=
  s.data.all Char.isWhitespace

/-- The value held for the key of a fragment after the row loop, started at
`dflt`: every decodable row replaces it, every other row leaves it. -/
def lastValue {F : Type} (dflt : Value F) (rows : List (Row F)) : Value F :=
  rows.foldl (fun acc row => match row with
    | .error _ => acc
    | .ok x => Value.float x) dflt

/-! ## Concrete inputs -/

/-- Unicode tables that leave every rune alone (only consulted above ASCII). -/
def asciiTables : UnicodeTables :=
  ⟨fun r => r, fun _ => false, fun _ => false, fun _ => false⟩

/-- A database that answers the count statement with `countRows`, the sum
statement with `sumRows` and fails to start every other statement. -/
def tableDB {F : Type} (countRows sumRows : Except Error (List (Row F))) : DB F :=
  ⟨fun q => if q = countQuery then countRows
    else if q = sumQuery then sumRows else .error "unknown statement"⟩

/-- Both statements return two decodable rows, `1` and then `2`. -/
def twoRowsDB : DB ℚ :=
  tableDB (.ok [.ok 1, .ok 2]) (.ok [.ok 1, .ok 2])

/-- The count statement returns an undecodable row, `1`, `2` and an undecodable
row; the sum statement returns `3` followed by an undecodable row. -/
def mixedRowsDB : DB ℚ :=
  tableDB (.ok ([.error "bad", .ok 1] ++ .ok 2 :: ["bad"].map .error))
    (.ok ([] ++ .ok 3 :: ["bad"].map .error))

/-- The count statement returns no row; the sum statement returns one row
that does not decode (a `NULL` sum). -/
def emptyDB : DB ℚ :=
  tableDB (.ok ([].map .error)) (.ok (["converting NULL to float64"].map .error))

/-- The answer of a server for an empty table: the count statement returns
the row `0`, the sum statement one row that does not decode (a `NULL` sum). -/
def emptyTableDB : DB ℚ :=
  tableDB (.ok ([] ++ .ok 0 :: [].map .error))
    (.ok (["converting NULL to float64"].map .error))

/-- Both statements return an undecodable row followed by the row `7`. -/
def skipDB : DB ℚ :=
  tableDB (.ok [.error "bad", .ok 7]) (.ok [.error "bad", .ok 7])

/-- The count statement returns the row `5`, the sum statement the row `42.0`. -/
def sampleDB : DB ℚ :=
  tableDB (.ok [.ok 5]) (.ok [.ok 42.0])

/-- The count statement returns the row `5`, the sum statement fails to
start. -/
def sumFailsDB : DB ℚ :=
  tableDB (.ok [.ok 5]) (.error "pq: column does not exist")

/-- A plugin as `Do` builds it from the default flags, for user `u` and the
given metric key prefix. -/
def pluginWithPrefix (pfx : String) : PostgresPlugin :=
  { Host := "localhost", Port := "5432", Username := "u", Password := "",
    SSLmode := "disable", Prefix := pfx, Timeout := 5, Tempfile := "", Option := "" }

/-- Three fragments with pairwise disjoint keys. -/
def exampleFragments : List (GoMap Int) :=
  [AList.singleton "count" 5, AList.singleton "sum" 42, AList.singleton "max" 7]

/-! ## Lemmas on `mergeStat` -/

theorem lookup_foldl_insert {V : Type} (l : List (Sigma fun _ : String => V))
    (hl : l.NodupKeys) (d : GoMap V) (k : String) :
    (l.foldl (fun d e => d.insert e.1 e.2) d).lookup k
      = (l.dlookup k).orElse (fun _ => d.lookup k) := by
  induction l generalizing d with
  | nil => simp
  | cons e l ih =>
    obtain ⟨hnot, hl2⟩ := List.nodupKeys_cons.mp hl
    rw [List.foldl_cons, ih hl2]
    by_cases hk : k = e.1
    · subst hk
      have hnone : l.dlookup e.1 = none := List.dlookup_eq_none.mpr hnot
      obtain ⟨a, b⟩ := e
      simp [hnone, List.dlookup_cons_eq]
    · have hne : e.1 ≠ k := fun h => hk h.symm
      simp [List.dlookup_cons_ne _ _ hk, AList.lookup_insert_ne hk]

theorem lookup_mergeStat {V : Type} (dst src : GoMap V) (k : String) :
    (mergeStat dst src).lookup k = (src.lookup k).orElse (fun _ => dst.lookup k) :=
  lookup_foldl_insert src.entries src.nodupKeys dst k

/-- The outcome of `mergeStat` does not depend on the order in which `range`
visits the entries of `src`. -/
theorem mergeStat_range_order {V : Type} (dst src src2 : GoMap V)
    (h : src.entries.Perm src2.entries) (k : String) :
    (mergeStat dst src).lookup k = (mergeStat dst src2).lookup k := by
  rw [lookup_mergeStat, lookup_mergeStat, AList.perm_lookup h]

/-- C1: `mergeStat` is last-write-wins.  After `mergeStat(dst, src)` every key
of `src` maps to its value in `src` (whether or not `dst` held it), every
key of `dst` that is not a key of `src` keeps its value, and there are no other
keys.  Merging `{a:1}` and then `{a:2}` into an empty map yields exactly
`{a:2}`. -/
theorem mergeStat_last_write_wins {V : Type} (dst src : GoMap V) :
    (∀ k v, src.lookup k = some v → (mergeStat dst src).lookup k = some v) ∧
    (∀ k, k ∉ src → (mergeStat dst src).lookup k = dst.lookup k) ∧
    (∀ k, k ∈ mergeStat dst src → k ∈ src ∨ k ∈ dst) ∧
    (∀ (a : String) (v1 v2 : V),
      mergeStat (mergeStat ∅ (AList.singleton a v1)) (AList.singleton a v2)
        = AList.singleton a v2) ∧
    mergeFragments [AList.singleton "a" (1 : Int), AList.singleton "a" 2]
      = AList.singleton "a" 2 := by
  refine ⟨?_, ?_, ?_, ?_, ?_⟩
  · intro k v hv
    rw [lookup_mergeStat, hv]; rfl
  · intro k hk
    rw [lookup_mergeStat, AList.lookup_eq_none.mpr hk]; rfl
  · intro k hk
    by_cases hs : k ∈ src
    · exact Or.inl hs
    · right
      rw [← AList.lookup_isSome] at hk ⊢
      rwa [lookup_mergeStat, AList.lookup_eq_none.mpr hs] at hk
  · intro a v1 v2
    apply AList.ext
    simp [mergeStat, AList.singleton]
  · apply AList.ext
    simp [mergeFragments, mergeStat, AList.singleton]

/-- Merging fragments with pairwise disjoint keys on top of `d`: a key holds
`v` afterwards exactly when a fragment holds `v` for it, or no fragment has the
key and `d` holds `v` for it. -/
theorem lookup_foldl_mergeStat {V : Type} (frags : List (GoMap V))
    (h : frags.Pairwise AList.Disjoint) (d : GoMap V) (k : String) (v : V) :
    (frags.foldl mergeStat d).lookup k = some v ↔
      (∃ f ∈ frags, f.lookup k = some v) ∨
        ((∀ f ∈ frags, k ∉ f) ∧ d.lookup k = some v) := by
  induction frags generalizing d with
  | nil => simp
  | cons f fs ih =>
    obtain ⟨hf, hfs⟩ := List.pairwise_cons.mp h
    rw [List.foldl_cons, ih hfs]
    constructor
    · rintro (⟨g, hg, hgv⟩ | ⟨hno, hd⟩)
      · exact Or.inl ⟨g, List.mem_cons_of_mem _ hg, hgv⟩
      · rw [lookup_mergeStat] at hd
        cases hfk : f.lookup k with
        | none =>
          rw [hfk] at hd
          refine Or.inr ⟨?_, hd⟩
          intro g hg
          rcases List.mem_cons.mp hg with rfl | hg
          · exact AList.lookup_eq_none.mp hfk
          · exact hno g hg
        | some w =>
          rw [hfk] at hd
          exact Or.inl ⟨f, List.mem_cons_self _ _, hfk.trans hd⟩
    · rintro (⟨g, hg, hgv⟩ | ⟨hno, hd⟩)
      · rcases List.mem_cons.mp hg with rfl | hg
        · right
          refine ⟨?_, ?_⟩
          · intro g2 hg2 hk2
            have hkg : k ∈ g.keys := AList.mem_keys.mp (AList.lookup_isSome.mp (by simp [hgv]))
            exact hf g2 hg2 k hkg (AList.mem_keys.mp hk2)
          · rw [lookup_mergeStat, hgv]; rfl
        · exact Or.inl ⟨g, hg, hgv⟩
      · right
        refine ⟨fun g hg => hno g (List.mem_cons_of_mem _ hg), ?_⟩
        rw [lookup_mergeStat, AList.lookup_eq_none.mpr (hno f (List.mem_cons_self _ _))]
        exact hd

theorem lookup_mergeFragments {V : Type} (frags : List (GoMap V))
    (h : frags.Pairwise AList.Disjoint) (k : String) (v : V) :
    (mergeFragments frags).lookup k = some v ↔ ∃ f ∈ frags, f.lookup k = some v := by
  unfold mergeFragments
  rw [lookup_foldl_mergeStat frags h]
  simp

theorem disjoint_symm {V : Type} (a b : GoMap V) (h : AList.Disjoint a b) :
    AList.Disjoint b a :=
  fun k hk hka => h k hka hk

/-- C2: for fragments with pairwise disjoint key sets, merging them in order
into an empty map yields exactly their union (a key maps to `v` in the result
if and only if some fragment maps it to `v`), and the result is the same map
for every permutation of the fragment list. -/
theorem mergeFragments_disjoint_union {V : Type} (frags : List (GoMap V))
    (h : frags.Pairwise AList.Disjoint) :
    (∀ k v, (mergeFragments frags).lookup k = some v ↔
      ∃ f ∈ frags, f.lookup k = some v) ∧
    (∀ frags2 : List (GoMap V), frags2.Perm frags →
      ∀ k, (mergeFragments frags2).lookup k = (mergeFragments frags).lookup k) := by
  refine ⟨fun k v => lookup_mergeFragments frags h k v, ?_⟩
  intro frags2 hp k
  have h2 : frags2.Pairwise AList.Disjoint :=
    (hp.pairwise_iff (fun {a b} hab => disjoint_symm a b hab)).mpr h
  apply Option.ext
  intro v
  simp only [Option.mem_def]
  rw [lookup_mergeFragments frags h, lookup_mergeFragments frags2 h2]
  constructor
  · rintro ⟨f, hf, hv⟩
    exact ⟨f, hp.mem_iff.mp hf, hv⟩
  · rintro ⟨f, hf, hv⟩
    exact ⟨f, hp.mem_iff.mpr hf, hv⟩

/-- C2 at the fragments `{count: 5}`, `{sum: 42}`, `{max: 7}`. -/
theorem mergeFragments_disjoint_union_witness :
    exampleFragments.Pairwise AList.Disjoint ∧
    ((∀ k v, (mergeFragments exampleFragments).lookup k = some v ↔
      ∃ f ∈ exampleFragments, f.lookup k = some v) ∧
    (∀ frags2 : List (GoMap Int), frags2.Perm exampleFragments →
      ∀ k, (mergeFragments frags2).lookup k
        = (mergeFragments exampleFragments).lookup k)) :=
  ⟨by simp [exampleFragments, AList.Disjoint, AList.keys, AList.singleton],
   mergeFragments_disjoint_union exampleFragments
    (by simp [exampleFragments, AList.Disjoint, AList.keys, AList.singleton])⟩


/-! ## Lemmas on the row loop -/

theorem insert_singleton_same {V : Type} (key : String) (x y : V) :
    (AList.singleton key x : GoMap V).insert key y = AList.singleton key y := by
  apply AList.ext
  simp [AList.singleton]

/-- On a fragment that holds only `key`, the row loop keeps a fragment that
holds only `key`, with the value computed by `lastValue`. -/
theorem scanRows_singleton {F : Type} (key : String) (x : Value F)
    (rows : List (Row F)) :
    scanRows key (AList.singleton key x) rows
      = AList.singleton key (lastValue x rows) := by
  induction rows generalizing x with
  | nil => rfl
  | cons row rows ih =>
    cases row with
    | error e => exact ih x
    | ok c =>
      show scanRows key ((AList.singleton key x : Stat F).insert key (Value.float c)) rows = _
      rw [insert_singleton_same, ih]
      rfl

theorem lastValue_append {F : Type} (x : Value F) (r1 r2 : List (Row F)) :
    lastValue x (r1 ++ r2) = lastValue (lastValue x r1) r2 := by
  simp [lastValue, List.foldl_append]

theorem lastValue_errors {F : Type} (x : Value F) (errs : List Error) :
    lastValue x (errs.map fun e => (Except.error e : Row F)) = x := by
  induction errs with
  | nil => rfl
  | cons e errs ih => exact ih

theorem lastValue_error_cons {F : Type} (x : Value F) (e : Error) (rows : List (Row F)) :
    lastValue x (Except.error e :: rows) = lastValue x rows := rfl

theorem lastValue_ok_cons {F : Type} (x : Value F) (c : F) (rows : List (Row F)) :
    lastValue x (Except.ok c :: rows) = lastValue (Value.float c) rows := rfl

theorem fetchCount_ok {F : Type} (db : DB F) (rows : List (Row F))
    (h : db.Query countQuery = .ok rows) :
    fetchCount db
      = (some (AList.singleton "count" (lastValue (Value.int 0) rows)), none) := by
  simp only [fetchCount, h, scanRows_singleton]

theorem fetchSum_ok {F : Type} (db : DB F) (rows : List (Row F))
    (h : db.Query sumQuery = .ok rows) :
    fetchSum db
      = (some (AList.singleton "sum" (lastValue (Value.int 0) rows)), none) := by
  simp only [fetchSum, h, scanRows_singleton]

theorem fetchCount_error {F : Type} (db : DB F) (e : Error)
    (h : db.Query countQuery = .error e) : fetchCount db = (none, some e) := by
  simp only [fetchCount, h]

theorem fetchSum_error {F : Type} (db : DB F) (e : Error)
    (h : db.Query sumQuery = .error e) : fetchSum db = (none, some e) := by
  simp only [fetchSum, h]

/-- The value after the loop is the one of the last decodable row. -/
theorem lastValue_last_ok {F : Type} (x : Value F) (pre : List (Row F)) (v : F)
    (errs : List Error) :
    lastValue x (pre ++ Except.ok v :: errs.map fun e => (Except.error e : Row F))
      = Value.float v := by
  rw [lastValue_append, lastValue_ok_cons, lastValue_errors]

/-! ## The fetcher -/

/-- C3, as stated, fails: with the rows `1`, `2` the first row is decodable,
yet both fragments hold the value of the second row. -/
theorem fetch_first_row_only_counterexample :
    twoRowsDB.Query countQuery = .ok [.ok 1, .ok 2] ∧
    twoRowsDB.Query sumQuery = .ok [.ok 1, .ok 2] ∧
    (fetchCount twoRowsDB).1.bind (AList.lookup "count") = some (Value.float 2) ∧
    (fetchCount twoRowsDB).1.bind (AList.lookup "count") ≠ some (Value.float 1) ∧
    (fetchSum twoRowsDB).1.bind (AList.lookup "sum") = some (Value.float 2) ∧
    (fetchSum twoRowsDB).1.bind (AList.lookup "sum") ≠ some (Value.float 1) :=
  ⟨rfl, rfl, by decide, by decide, by decide, by decide⟩

/-- C3, amended, stated for each function on a database of its own, so that
neither conclusion depends on the other statement: every returned row is read
and the fragment of `fetchCount` (resp. `fetchSum`) maps "count" (resp. "sum")
to the value of the last decodable row, whatever rows come before it; with no
row before it this is the first row, whose value is kept when no later row is
decodable. -/
theorem fetch_last_decodable_row {F : Type} (dbC dbS : DB F)
    (preC preS : List (Row F)) (c s : F) (errsC errsS : List Error)
    (hc : dbC.Query countQuery
      = .ok (preC ++ .ok c :: errsC.map fun e => (Except.error e : Row F)))
    (hs : dbS.Query sumQuery
      = .ok (preS ++ .ok s :: errsS.map fun e => (Except.error e : Row F))) :
    fetchCount dbC = (some (AList.singleton "count" (Value.float c)), none) ∧
    fetchSum dbS = (some (AList.singleton "sum" (Value.float s)), none) := by
  rw [fetchCount_ok dbC _ hc, fetchSum_ok dbS _ hs, lastValue_last_ok, lastValue_last_ok]
  exact ⟨rfl, rfl⟩

/-- C3, amended: `fetchCount` at `emptyTableDB`, whose sum statement has no
decodable row, and `fetchSum` at `mixedRowsDB`. -/
theorem fetch_last_decodable_row_witness :
    (emptyTableDB.Query countQuery = .ok ([] ++ .ok 0 :: [].map .error) ∧
    mixedRowsDB.Query sumQuery = .ok ([] ++ .ok 3 :: ["bad"].map .error)) ∧
    (fetchCount emptyTableDB = (some (AList.singleton "count" (Value.float 0)), none) ∧
    fetchSum mixedRowsDB = (some (AList.singleton "sum" (Value.float 3)), none)) :=
  ⟨⟨rfl, rfl⟩,
   fetch_last_decodable_row emptyTableDB mixedRowsDB [] [] 0 3 [] ["bad"] rfl rfl⟩

/-- C4, stated for each function on a database of its own, so that neither
conclusion depends on the other statement: when the count statement starts and
returns zero rows (the case of empty `errsC`), or more generally only rows that
do not decode, `fetchCount` returns `{"count": 0}` with a nil error; when the
sum statement starts and returns zero rows (empty `errsS`) or only rows that do
not decode, `fetchSum` returns `{"sum": 0}` with a nil error. -/
theorem fetch_default_on_empty {F : Type} (dbC dbS : DB F)
    (errsC errsS : List Error)
    (hc : dbC.Query countQuery = .ok (errsC.map fun e => (Except.error e : Row F)))
    (hs : dbS.Query sumQuery = .ok (errsS.map fun e => (Except.error e : Row F))) :
    fetchCount dbC = (some (AList.singleton "count" (Value.int 0)), none) ∧
    fetchSum dbS = (some (AList.singleton "sum" (Value.int 0)), none) := by
  rw [fetchCount_ok dbC _ hc, fetchSum_ok dbS _ hs, lastValue_errors, lastValue_errors]
  exact ⟨rfl, rfl⟩

/-- C4: `fetchCount` at `emptyDB` (zero rows) and `fetchSum` at `emptyTableDB`,
whose count statement has a decodable row and whose sum is `NULL`. -/
theorem fetch_default_on_empty_witness :
    (emptyDB.Query countQuery = .ok [] ∧
    emptyTableDB.Query sumQuery = .ok [.error "converting NULL to float64"]) ∧
    (fetchCount emptyDB = (some (AList.singleton "count" (Value.int 0)), none) ∧
    fetchSum emptyTableDB = (some (AList.singleton "sum" (Value.int 0)), none)) :=
  ⟨⟨rfl, rfl⟩,
   fetch_default_on_empty emptyDB emptyTableDB [] ["converting NULL to float64"]
    rfl rfl⟩

/-- C5: once the statement has started, `fetchCount` and `fetchSum` never
return an error, whatever the rows; a row that does not decode leaves the
fragment as it is, so that removing such a row from the result changes
nothing; and one undecodable row followed by one decodable row with value `v`
yields `{key: v}` with a nil error. -/
theorem fetch_row_skip {F : Type} (db : DB F) (rowsC rowsS : List (Row F))
    (hc : db.Query countQuery = .ok rowsC) (hs : db.Query sumQuery = .ok rowsS) :
    (∃ stat, fetchCount db = (some stat, none)) ∧
    (∃ stat, fetchSum db = (some stat, none)) ∧
    (∀ (key : String) (stat : Stat F) (e : Error),
      scanRow key stat (.error e) = stat) ∧
    (∀ (db2 : DB F) (pre post : List (Row F)) (e : Error),
      rowsC = pre ++ .error e :: post → db2.Query countQuery = .ok (pre ++ post) →
      fetchCount db = fetchCount db2) ∧
    (∀ (db2 : DB F) (pre post : List (Row F)) (e : Error),
      rowsS = pre ++ .error e :: post → db2.Query sumQuery = .ok (pre ++ post) →
      fetchSum db = fetchSum db2) ∧
    (∀ (e : Error) (v : F), rowsC = [.error e, .ok v] →
      fetchCount db = (some (AList.singleton "count" (Value.float v)), none)) ∧
    (∀ (e : Error) (v : F), rowsS = [.error e, .ok v] →
      fetchSum db = (some (AList.singleton "sum" (Value.float v)), none)) := by
  refine ⟨⟨_, fetchCount_ok db _ hc⟩, ⟨_, fetchSum_ok db _ hs⟩, fun _ _ _ => rfl,
    ?_, ?_, ?_, ?_⟩
  · intro db2 pre post e hrows h2
    rw [fetchCount_ok db _ hc, fetchCount_ok db2 _ h2, hrows, lastValue_append,
      lastValue_append, lastValue_error_cons]
  · intro db2 pre post e hrows h2
    rw [fetchSum_ok db _ hs, fetchSum_ok db2 _ h2, hrows, lastValue_append,
      lastValue_append, lastValue_error_cons]
  · intro e v hrows
    rw [fetchCount_ok db _ hc, hrows]; rfl
  · intro e v hrows
    rw [fetchSum_ok db _ hs, hrows]; rfl

/-- C5 at `skipDB`: an undecodable row followed by the row `7`. -/
theorem fetch_row_skip_witness :
    (skipDB.Query countQuery = .ok [.error "bad", .ok 7] ∧
    skipDB.Query sumQuery = .ok [.error "bad", .ok 7]) ∧
    (fetchCount skipDB = (some (AList.singleton "count" (Value.float 7)), none) ∧
    fetchSum skipDB = (some (AList.singleton "sum" (Value.float 7)), none)) :=
  ⟨⟨rfl, rfl⟩,
   (fetch_row_skip skipDB _ _ rfl rfl).2.2.2.2.2.1 "bad" 7 rfl,
   (fetch_row_skip skipDB _ _ rfl rfl).2.2.2.2.2.2 "bad" 7 rfl⟩

/-! ## `FetchMetrics` -/

theorem FetchMetrics_connect_error {F : Type} (p : PostgresPlugin)
    (connect : String → String → Except Error (DB F)) (e : Error)
    (h : connect "postgres" p.connectCmd = .error e) :
    p.FetchMetrics connect = (none, some e) := by
  simp only [PostgresPlugin.FetchMetrics, h]

theorem FetchMetrics_count_error {F : Type} (p : PostgresPlugin)
    (connect : String → String → Except Error (DB F)) (db : DB F) (e : Error)
    (h : connect "postgres" p.connectCmd = .ok db)
    (hc : db.Query countQuery = .error e) :
    p.FetchMetrics connect = (none, some e) := by
  simp only [PostgresPlugin.FetchMetrics, h, fetchCount_error db e hc]

theorem FetchMetrics_sum_error {F : Type} (p : PostgresPlugin)
    (connect : String → String → Except Error (DB F)) (db : DB F)
    (rows : List (Row F)) (e : Error)
    (h : connect "postgres" p.connectCmd = .ok db)
    (hc : db.Query countQuery = .ok rows) (hs : db.Query sumQuery = .error e) :
    p.FetchMetrics connect = (none, some e) := by
  simp only [PostgresPlugin.FetchMetrics, h, fetchCount_ok db rows hc,
    fetchSum_error db e hs]

theorem mergeStat_count_sum {V : Type} (x y : V) :
    mergeStat (mergeStat ∅ (AList.singleton "count" x)) (AList.singleton "sum" y)
      = (AList.singleton "count" x : GoMap V).insert "sum" y := by
  apply AList.ext
  simp [mergeStat, AList.singleton]

theorem FetchMetrics_ok {F : Type} (p : PostgresPlugin)
    (connect : String → String → Except Error (DB F)) (db : DB F)
    (rowsC rowsS : List (Row F))
    (h : connect "postgres" p.connectCmd = .ok db)
    (hc : db.Query countQuery = .ok rowsC) (hs : db.Query sumQuery = .ok rowsS) :
    p.FetchMetrics connect
      = (some ((AList.singleton "count" (lastValue (Value.int 0) rowsC) : Stat F).insert
          "sum" (lastValue (Value.int 0) rowsS)), none) := by
  simp only [PostgresPlugin.FetchMetrics, h, fetchCount_ok db rowsC hc,
    fetchSum_ok db rowsS hs, Option.getD_some, mergeStat_count_sum]

theorem lookup_count_sum {V : Type} (x y : V) (k : String) :
    ((AList.singleton "count" x : GoMap V).insert "sum" y).lookup k
      = if k = "count" then some x else if k = "sum" then some y else none := by
  by_cases hs : k = "sum"
  · subst hs
    rw [AList.lookup_insert]
    rfl
  · rw [AList.lookup_insert_ne hs]
    by_cases hc : k = "count"
    · subst hc
      simp [AList.singleton, AList.lookup]
    · simp [AList.singleton, AList.lookup, hc, hs, List.dlookup_cons_ne]

/-- C6: `FetchMetrics` is all-or-nothing.  It returns a non-nil error with a
nil snapshot exactly when the connection cannot be established or the count or
the sum statement fails to start, and a snapshot with a nil error in every
other case; when the count succeeds and the sum fails nothing of the count is
returned. -/
theorem FetchMetrics_all_or_nothing {F : Type} (p : PostgresPlugin)
    (connect : String → String → Except Error (DB F)) :
    ((∃ e, p.FetchMetrics connect = (none, some e)) ↔ startFails p connect) ∧
    ((∃ snap, p.FetchMetrics connect = (some snap, none)) ↔ ¬ startFails p connect) ∧
    (∀ (db : DB F) (rows : List (Row F)) (e : Error),
      connect "postgres" p.connectCmd = .ok db → db.Query countQuery = .ok rows →
      db.Query sumQuery = .error e → p.FetchMetrics connect = (none, some e)) := by
  refine ⟨?_, ?_, fun db rows e h hc hs => FetchMetrics_sum_error p connect db rows e h hc hs⟩
  all_goals
    cases h : connect "postgres" p.connectCmd with
    | error e =>
      rw [FetchMetrics_connect_error p connect e h]
      simp [startFails, h]
    | ok db =>
      cases hc : db.Query countQuery with
      | error e =>
        rw [FetchMetrics_count_error p connect db e h hc]
        simp [startFails, h, hc]
      | ok rowsC =>
        cases hs : db.Query sumQuery with
        | error e =>
          rw [FetchMetrics_sum_error p connect db rowsC e h hc hs]
          simp [startFails, h, hc, hs]
        | ok rowsS =>
          rw [FetchMetrics_ok p connect db rowsC rowsS h hc hs]
          simp [startFails, h, hc, hs]

/-- C6 at `sumFailsDB`: the count succeeds, the sum fails to start, and
nothing of the count is returned. -/
theorem FetchMetrics_all_or_nothing_witness :
    ((fun _ _ => Except.ok sumFailsDB : String → String → Except Error (DB ℚ))
        "postgres" (pluginWithPrefix "postgres").connectCmd = .ok sumFailsDB ∧
      sumFailsDB.Query countQuery = .ok [.ok 5] ∧
      sumFailsDB.Query sumQuery = .error "pq: column does not exist") ∧
    (pluginWithPrefix "postgres").FetchMetrics (fun _ _ => .ok sumFailsDB)
      = (none, some "pq: column does not exist") :=
  ⟨⟨rfl, rfl, rfl⟩,
   (FetchMetrics_all_or_nothing (pluginWithPrefix "postgres")
    (fun _ _ => .ok sumFailsDB)).2.2 sumFailsDB [.ok 5] "pq: column does not exist"
    rfl rfl rfl⟩

/-- C9: when the connection succeeds, the count statement returns the single
decodable row `c` and the sum statement the single decodable row `s`,
`FetchMetrics` returns with a nil error the snapshot `{"count": c, "sum": s}`,
which has these two keys and no other. -/
theorem FetchMetrics_end_to_end {F : Type} (p : PostgresPlugin)
    (connect : String → String → Except Error (DB F)) (db : DB F) (c s : F)
    (h : connect "postgres" p.connectCmd = .ok db)
    (hc : db.Query countQuery = .ok [.ok c]) (hs : db.Query sumQuery = .ok [.ok s]) :
    ∃ snap : Stat F, p.FetchMetrics connect = (some snap, none) ∧
      (∀ k, snap.lookup k = if k = "count" then some (Value.float c)
        else if k = "sum" then some (Value.float s) else none) ∧
      snap.keys.Perm ["count", "sum"] := by
  refine ⟨_, FetchMetrics_ok p connect db _ _ h hc hs, ?_, ?_⟩
  · intro k
    rw [lookup_count_sum]
    rfl
  · have hk : ((AList.singleton "count" (lastValue (Value.int 0) [Except.ok c]) :
        Stat F).insert "sum" (lastValue (Value.int 0) [Except.ok s])).keys
        = ["sum", "count"] := by
      simp [AList.keys, AList.singleton, List.keys]
    rw [hk]
    exact List.Perm.swap _ _ _

/-- C9 at `count=5`, `sum=42.0`. -/
theorem FetchMetrics_end_to_end_witness :
    ((fun _ _ => Except.ok sampleDB : String → String → Except Error (DB ℚ))
        "postgres" (pluginWithPrefix "postgres").connectCmd = .ok sampleDB ∧
      sampleDB.Query countQuery = .ok [.ok 5] ∧
      sampleDB.Query sumQuery = .ok [.ok 42.0]) ∧
    ∃ snap : Stat ℚ,
      (pluginWithPrefix "postgres").FetchMetrics (fun _ _ => .ok sampleDB)
        = (some snap, none) ∧
      (∀ k, snap.lookup k = if k = "count" then some (Value.float 5)
        else if k = "sum" then some (Value.float 42.0) else none) ∧
      snap.keys.Perm ["count", "sum"] :=
  ⟨⟨rfl, rfl, rfl⟩,
   FetchMetrics_end_to_end (pluginWithPrefix "postgres") (fun _ _ => .ok sampleDB)
    sampleDB 5 42.0 rfl rfl rfl⟩

/-! ## Metric key prefix and graph definition -/

theorem Title_postgres (u : UnicodeTables) : Title u "postgres" = "Postgres" := by
  rfl

theorem GraphDefinition_entries (u : UnicodeTables) (p : PostgresPlugin) :
    (p.GraphDefinition u).entries =
      [⟨"Sum", Graphs.mk (Title u p.MetricKeyPrefix ++ " Sum") "integer"
          [Metrics.mk "sum" "Count"]⟩,
       ⟨"Count", Graphs.mk (Title u p.MetricKeyPrefix ++ " Count") "integer"
          [Metrics.mk "count" "Count"]⟩] := by
  simp [PostgresPlugin.GraphDefinition]

theorem FetchMetrics_keys {F : Type} (p : PostgresPlugin)
    (connect : String → String → Except Error (DB F)) (snap : Stat F)
    (h : p.FetchMetrics connect = (some snap, none)) :
    "count" ∈ snap ∧ "sum" ∈ snap := by
  cases hconn : connect "postgres" p.connectCmd with
  | error e =>
    rw [FetchMetrics_connect_error p connect e hconn] at h
    simp at h
  | ok db =>
    cases hc : db.Query countQuery with
    | error e =>
      rw [FetchMetrics_count_error p connect db e hconn hc] at h
      simp at h
    | ok rowsC =>
      cases hs : db.Query sumQuery with
      | error e =>
        rw [FetchMetrics_sum_error p connect db rowsC e hconn hc hs] at h
        simp at h
      | ok rowsS =>
        rw [FetchMetrics_ok p connect db rowsC rowsS hconn hc hs] at h
        have hsnap := (Option.some.inj (congrArg Prod.fst h)).symm
        subst hsnap
        constructor
        · rw [← AList.lookup_isSome, lookup_count_sum]; rfl
        · rw [← AList.lookup_isSome, lookup_count_sum]; rfl

/-- C7: schema subset invariant.  Whatever the prefix of the plugin `p` whose
graph definition is taken, every metric name referenced by one of its graphs is
a key of every snapshot that `FetchMetrics` returns successfully (for any
plugin `q`, connection and rows). -/
theorem graph_metrics_in_snapshot {F : Type} (u : UnicodeTables)
    (p q : PostgresPlugin) (connect : String → String → Except Error (DB F))
    (snap : Stat F) (h : q.FetchMetrics connect = (some snap, none)) :
    ∀ g ∈ (p.GraphDefinition u).entries, ∀ m ∈ g.2.Metrics, m.Name ∈ snap := by
  obtain ⟨hcount, hsum⟩ := FetchMetrics_keys q connect snap h
  intro g hg m hm
  rw [GraphDefinition_entries] at hg
  simp only [List.mem_cons, List.mem_singleton, List.not_mem_nil, or_false] at hg
  rcases hg with rfl | rfl
  · simp only [List.mem_singleton] at hm
    subst hm
    exact hsum
  · simp only [List.mem_singleton] at hm
    subst hm
    exact hcount

/-- C7 at `skipDB`, whose snapshot is `{"count": 7, "sum": 7}`. -/
theorem graph_metrics_in_snapshot_witness :
    (pluginWithPrefix "postgres").FetchMetrics (fun _ _ => .ok skipDB)
      = (some ((AList.singleton "count" (Value.float 7) : Stat ℚ).insert "sum"
          (Value.float 7)), none) ∧
    ∀ g ∈ ((pluginWithPrefix "db").GraphDefinition asciiTables).entries,
      ∀ m ∈ g.2.Metrics,
        m.Name ∈ ((AList.singleton "count" (Value.float 7) : Stat ℚ).insert "sum"
          (Value.float 7)) :=
  ⟨rfl, graph_metrics_in_snapshot asciiTables (pluginWithPrefix "db")
    (pluginWithPrefix "postgres") (fun _ _ => .ok skipDB) _ rfl⟩

/-- C8, as stated, fails: the prefix that is one space is blank, and
`MetricKeyPrefix` returns it unchanged instead of the default. -/
theorem MetricKeyPrefix_blank_counterexample :
    isBlank (pluginWithPrefix " ").Prefix = true ∧
    (pluginWithPrefix " ").MetricKeyPrefix = " " ∧
    (pluginWithPrefix " ").MetricKeyPrefix ≠ "postgres" := by
  decide

/-- C8, amended: for a plugin `p` whose Prefix is empty, `MetricKeyPrefix`
returns the default "postgres" and `GraphDefinition` decorates its labels with
that default; for a plugin `q` with any other Prefix, `MetricKeyPrefix` returns
the Prefix unchanged. -/
theorem MetricKeyPrefix_default (u : UnicodeTables) (p q : PostgresPlugin)
    (hp : p.Prefix = "") (hq : q.Prefix ≠ "") :
    p.MetricKeyPrefix = "postgres" ∧
    ((p.GraphDefinition u).lookup "Count").map Graphs.Label = some "Postgres Count" ∧
    ((p.GraphDefinition u).lookup "Sum").map Graphs.Label = some "Postgres Sum" ∧
    q.MetricKeyPrefix = q.Prefix := by
  have hpre : p.MetricKeyPrefix = "postgres" := by
    simp [PostgresPlugin.MetricKeyPrefix, hp]
  refine ⟨hpre, ?_, ?_, ?_⟩
  · simp only [AList.lookup, GraphDefinition_entries, hpre, Title_postgres]
    rfl
  · simp only [AList.lookup, GraphDefinition_entries, hpre, Title_postgres]
    rfl
  · simp [PostgresPlugin.MetricKeyPrefix, hq]

/-- C8, amended, at the empty prefix and at the prefix of one space. -/
theorem MetricKeyPrefix_default_witness :
    ((pluginWithPrefix "").Prefix = "" ∧ (pluginWithPrefix " ").Prefix ≠ "") ∧
    ((pluginWithPrefix "").MetricKeyPrefix = "postgres" ∧
    (((pluginWithPrefix "").GraphDefinition asciiTables).lookup "Count").map
      Graphs.Label = some "Postgres Count" ∧
    (((pluginWithPrefix "").GraphDefinition asciiTables).lookup "Sum").map
      Graphs.Label = some "Postgres Sum" ∧
    (pluginWithPrefix " ").MetricKeyPrefix = (pluginWithPrefix " ").Prefix) :=
  ⟨⟨rfl, by decide⟩,
   MetricKeyPrefix_default asciiTables (pluginWithPrefix "") (pluginWithPrefix " ")
    rfl (by decide)⟩

/-- C10: graph schema.  For every plugin `p` the graph definition has exactly
the graph ids "Count" and "Sum"; their labels are the title-cased
`MetricKeyPrefix` followed by " Count" and " Sum"; the graph "Count" holds
exactly the metric "count" and the graph "Sum" exactly the metric "sum".  For a
plugin `p0` with an empty Prefix the labels are "Postgres Count" and
"Postgres Sum"; for a plugin `pg` with Prefix `postgres` the emitted keys are
`postgres.Count.count` and `postgres.Sum.sum`. -/
theorem GraphDefinition_schema (u : UnicodeTables) (p p0 pg : PostgresPlugin)
    (h0 : p0.Prefix = "") (hg : pg.Prefix = "postgres") :
    (∀ id, id ∈ p.GraphDefinition u ↔ id = "Count" ∨ id = "Sum") ∧
    (p.GraphDefinition u).lookup "Count"
      = some (Graphs.mk (Title u p.MetricKeyPrefix ++ " Count") "integer"
          [Metrics.mk "count" "Count"]) ∧
    (p.GraphDefinition u).lookup "Sum"
      = some (Graphs.mk (Title u p.MetricKeyPrefix ++ " Sum") "integer"
          [Metrics.mk "sum" "Count"]) ∧
    ((p0.GraphDefinition u).lookup "Count").map Graphs.Label = some "Postgres Count" ∧
    ((p0.GraphDefinition u).lookup "Sum").map Graphs.Label = some "Postgres Sum" ∧
    (emittedKeys u pg).Perm ["postgres.Count.count", "postgres.Sum.sum"] := by
  have hpre0 : p0.MetricKeyPrefix = "postgres" := by
    simp [PostgresPlugin.MetricKeyPrefix, h0]
  have hpreg : pg.MetricKeyPrefix = "postgres" := by
    simp [PostgresPlugin.MetricKeyPrefix, hg]
  refine ⟨?_, ?_, ?_, ?_, ?_, ?_⟩
  · intro id
    rw [AList.mem_keys, AList.keys, GraphDefinition_entries]
    simp only [List.keys, List.map_cons, List.map_nil, List.mem_cons, List.mem_singleton,
      List.not_mem_nil, or_false]
    exact Or.comm
  · simp only [AList.lookup, GraphDefinition_entries]
    rfl
  · simp only [AList.lookup, GraphDefinition_entries]
    rfl
  · simp only [AList.lookup, GraphDefinition_entries, hpre0, Title_postgres]
    rfl
  · simp only [AList.lookup, GraphDefinition_entries, hpre0, Title_postgres]
    rfl
  · have hkeys : emittedKeys u pg = ["postgres.Sum.sum", "postgres.Count.count"] := by
      simp only [emittedKeys, GraphDefinition_entries, hpreg, List.flatMap_cons,
        List.flatMap_nil, List.map_cons, List.map_nil, List.append_nil,
        List.singleton_append]
      rfl
    rw [hkeys]
    exact List.Perm.swap _ _ _

/-- C10 at the default flags: an empty Prefix and the Prefix `postgres`. -/
theorem GraphDefinition_schema_witness :
    ((pluginWithPrefix "").Prefix = "" ∧ (pluginWithPrefix "postgres").Prefix = "postgres") ∧
    (((pluginWithPrefix "").GraphDefinition asciiTables).lookup "Count").map
      Graphs.Label = some "Postgres Count" ∧
    (((pluginWithPrefix "").GraphDefinition asciiTables).lookup "Sum").map
      Graphs.Label = some "Postgres Sum" ∧
    (emittedKeys asciiTables (pluginWithPrefix "postgres")).Perm
      ["postgres.Count.count", "postgres.Sum.sum"] :=
  ⟨⟨rfl, rfl⟩,
   (GraphDefinition_schema asciiTables (pluginWithPrefix "db") (pluginWithPrefix "")
    (pluginWithPrefix "postgres") rfl rfl).2.2.2⟩

end mppostgres
